import Mathlib

/-!
Verification development for the mcp-intelligence repository.

The TypeScript sources are shallowly embedded: JS `Map`s become association
lists that preserve insertion order (JS `Map` iteration order), JS numbers
become `ℚ`, JS `Set`s become duplicate-free lists in insertion order, and
wall-clock timestamps become `Nat` parameters.  The third-party fuzzy-search
library (fuse.js) is abstracted as a scoring-function parameter: the code
feeds it the registry contents and keeps results whose score is below 0.5;
the score function itself is external to the repository.
-/

namespace MCPI

/-! ## Association lists (model of JS `Map` / plain objects) -/

/-- First-match lookup, mirroring `Map.get`. -/
def lookupA {α : Type} : List (String × α) → String → Option α
  | [], _ => none
  | (k, v) :: rest, key => if k = key then some v else lookupA rest key

/-- `Map.set` / `obj[key] = v`: replace the first binding in place (JS keeps
the original insertion position), or append a new binding. -/
def setA {α : Type} : List (String × α) → String → α → List (String × α)
  | [], key, v => [(key, v)]
  | (k, w) :: rest, key, v =>
    if k = key then (key, v) :: rest else (k, w) :: setA rest key v

/-- `Map.delete`: remove the first binding for the key. -/
def eraseKeyA {α : Type} : List (String × α) → String → List (String × α)
  | [], _ => []
  | (k, w) :: rest, key => if k = key then rest else (k, w) :: eraseKeyA rest key

theorem lookupA_setA_self {α : Type} (l : List (String × α)) (k : String) (v : α) :
    lookupA (setA l k v) k = some v := by
  induction l with
  | nil => simp [setA, lookupA]
  | cons hd tl ih =>
    obtain ⟨k', v'⟩ := hd
    by_cases h : k' = k
    · simp [setA, h, lookupA]
    · simp [setA, h, lookupA, ih]

theorem lookupA_setA_ne {α : Type} (l : List (String × α)) (k k' : String) (v : α)
    (h : k' ≠ k) : lookupA (setA l k v) k' = lookupA l k' := by
  have hne : ¬ k = k' := fun hh => h hh.symm
  induction l with
  | nil => simp [setA, lookupA, hne]
  | cons hd tl ih =>
    obtain ⟨k0, v0⟩ := hd
    by_cases h0 : k0 = k
    · subst h0
      simp [setA, lookupA, hne]
    · simp only [setA, if_neg h0, lookupA]
      by_cases h1 : k0 = k'
      · simp [h1]
      · simp [h1, ih]

theorem setA_of_lookupA_none {α : Type} (l : List (String × α)) (k : String) (v : α)
    (h : lookupA l k = none) : setA l k v = l ++ [(k, v)] := by
  induction l with
  | nil => simp [setA]
  | cons hd tl ih =>
    obtain ⟨k0, v0⟩ := hd
    by_cases h0 : k0 = k
    · simp [lookupA, h0] at h
    · simp only [lookupA, if_neg h0] at h
      simp [setA, h0, ih h]

theorem lookupA_eraseKeyA_ne {α : Type} (l : List (String × α)) (k k' : String)
    (h : k' ≠ k) : lookupA (eraseKeyA l k) k' = lookupA l k' := by
  have hne : ¬ k = k' := fun hh => h hh.symm
  induction l with
  | nil => simp [eraseKeyA]
  | cons hd tl ih =>
    obtain ⟨k0, v0⟩ := hd
    by_cases h0 : k0 = k
    · subst h0
      simp [eraseKeyA, lookupA, hne]
    · simp only [eraseKeyA, if_neg h0, lookupA]
      by_cases h1 : k0 = k'
      · simp [h1]
      · simp [h1, ih]

theorem lookupA_eq_none_of_not_mem {α : Type} (l : List (String × α)) (k : String)
    (h : k ∉ l.map Prod.fst) : lookupA l k = none := by
  induction l with
  | nil => rfl
  | cons hd tl ih =>
    obtain ⟨k0, v0⟩ := hd
    simp only [List.map_cons, List.mem_cons, not_or] at h
    have h0 : ¬ k0 = k := fun hh => h.1 hh.symm
    simp [lookupA, h0, ih h.2]

theorem lookupA_eraseKeyA_self {α : Type} (l : List (String × α)) (k : String)
    (hnd : (l.map Prod.fst).Nodup) : lookupA (eraseKeyA l k) k = none := by
  induction l with
  | nil => rfl
  | cons hd tl ih =>
    obtain ⟨k0, v0⟩ := hd
    simp only [List.map_cons, List.nodup_cons] at hnd
    by_cases h0 : k0 = k
    · subst h0
      simp only [eraseKeyA, if_pos rfl]
      exact lookupA_eq_none_of_not_mem tl k0 hnd.1
    · simp [eraseKeyA, h0, lookupA, ih hnd.2]

theorem lookupA_append_ne {α : Type} (l : List (String × α)) (k k' : String) (v : α)
    (h : k' ≠ k) : lookupA (l ++ [(k, v)]) k' = lookupA l k' := by
  have hne : ¬ k = k' := fun hh => h hh.symm
  induction l with
  | nil => simp [lookupA, hne]
  | cons hd tl ih =>
    obtain ⟨k0, v0⟩ := hd
    by_cases h0 : k0 = k'
    · simp [lookupA, h0]
    · simp [lookupA, h0, ih]

theorem lookupA_append_self {α : Type} (l : List (String × α)) (k : String) (v : α)
    (h : lookupA l k = none) : lookupA (l ++ [(k, v)]) k = some v := by
  induction l with
  | nil => simp [lookupA]
  | cons hd tl ih =>
    obtain ⟨k0, v0⟩ := hd
    by_cases h0 : k0 = k
    · simp [lookupA, h0] at h
    · simp only [lookupA, if_neg h0] at h
      simp [lookupA, h0, ih h]

/-! ## Data model (`src/types/intelligence.ts`) -/

/-- An extracted entity of an intent. -/
structure Entity where
  type : String
  value : String
  role : Option String
  deriving DecidableEq, Repr

/-- A filter of an intent.  `operator` and `value` are strings in the
embedding (the code only ever renders them into strings). -/
structure Filter where
  field : String
  operator : String
  value : String
  deriving DecidableEq, Repr

/-- A time range.  `start`/`end` are kept as already-rendered ISO strings
(`toISOString` output); `end` is a Lean keyword, hence `endD`. -/
structure TimeRange where
  startD : Option String
  endD : Option String
  relative : Option String
  deriving DecidableEq, Repr

/-- The `context` argument: only `context?.domain` is ever read. -/
structure Ctx where
  domain : Option String
  deriving DecidableEq, Repr

/-- A structured intent. -/
structure Intent where
  action : String
  entities : List Entity
  filters : List Filter
  timeframe : Option TimeRange
  aggregation : Option String
  context : Option Ctx
  deriving DecidableEq, Repr

/-- Declared capability of a backend server. -/
structure ServerCapability where
  protocol : String
  domains : List String
  entities : List String
  operations : List String
  description : String
  deriving DecidableEq, Repr

/-- Per-server metrics. -/
structure Metrics where
  totalRequests : Nat
  avgResponseTime : ℚ
  errorRate : ℚ
  deriving DecidableEq, Repr

inductive ServerStatus where
  | active
  | inactive
  | error
  deriving DecidableEq, Repr

/-- A registry entry.  `lastHealthCheck` (wall clock) is omitted: no claim
depends on it. -/
structure ServerRegistration where
  name : String
  capability : ServerCapability
  status : ServerStatus
  metrics : Metrics
  deriving DecidableEq, Repr

/-! ## ServerRegistry (`src/registry/ServerRegistry.ts`) -/

/-- Registry state: the server map plus the three indices.  Index values are
JS `Set`s of names, modelled as duplicate-free lists in insertion order. -/
structure ServerRegistry where
  servers : List (String × ServerRegistration)
  domainIndex : List (String × List String)
  entityIndex : List (String × List String)
  operationIndex : List (String × List String)
  deriving Repr

def emptyRegistry : ServerRegistry :=
  { servers := [], domainIndex := [], entityIndex := [], operationIndex := [] }

/-- The name list of an index key (`index.get(k)`, empty if absent). -/
def indexGet (idx : List (String × List String)) (k : String) : List String :=
  (lookupA idx k).getD []

/-- `if (!index.has(k)) index.set(k, new Set()); index.get(k).add(name)`. -/
def indexAdd (idx : List (String × List String)) (k n : String) :
    List (String × List String) :=
  match lookupA idx k with
  | none => idx ++ [(k, [n])]
  | some ns => setA idx k (if n ∈ ns then ns else ns ++ [n])

/-- `index.get(k)?.delete(name)`. -/
def indexRemove (idx : List (String × List String)) (k n : String) :
    List (String × List String) :=
  match lookupA idx k with
  | none => idx
  | some ns => setA idx k (ns.erase n)

/-- `updateIndices` of `register`, specialised to one index. -/
def addAll (idx : List (String × List String)) (keys : List String) (n : String) :
    List (String × List String) :=
  keys.foldl (fun acc k => indexAdd acc k n) idx

/-- The index removals of `unregister`, specialised to one index. -/
def removeAll (idx : List (String × List String)) (keys : List String) (n : String) :
    List (String × List String) :=
  keys.foldl (fun acc k => indexRemove acc k n) idx

/-- `register(name, capability)`: store a fresh active registration with
zeroed metrics and add the name under every declared domain, entity and
operation. -/
def register (reg : ServerRegistry) (name : String) (capability : ServerCapability) :
    ServerRegistry :=
  let registration : ServerRegistration :=
    { name := name, capability := capability, status := ServerStatus.active,
      metrics := { totalRequests := 0, avgResponseTime := 0, errorRate := 0 } }
  { servers := setA reg.servers name registration,
    domainIndex := addAll reg.domainIndex capability.domains name,
    entityIndex := addAll reg.entityIndex capability.entities name,
    operationIndex := addAll reg.operationIndex capability.operations name }

/-- `unregister(serverName)`: remove the name from the indices of the
capability stored at removal time, then delete the registration. -/
def unregister (reg : ServerRegistry) (serverName : String) : ServerRegistry :=
  match lookupA reg.servers serverName with
  | none => reg
  | some server =>
    { servers := eraseKeyA reg.servers serverName,
      domainIndex := removeAll reg.domainIndex server.capability.domains serverName,
      entityIndex := removeAll reg.entityIndex server.capability.entities serverName,
      operationIndex := removeAll reg.operationIndex server.capability.operations serverName }

/-- `updateMetrics(serverName, requestTime, success)`: running-average update
of response time and error rate; silently returns when the name is unknown. -/
def updateMetrics (reg : ServerRegistry) (serverName : String) (requestTime : ℚ)
    (success : Bool) : ServerRegistry :=
  match lookupA reg.servers serverName with
  | none => reg
  | some server =>
    let totalRequests : Nat := server.metrics.totalRequests + 1
    let avgResponseTime : ℚ :=
      (server.metrics.avgResponseTime * ((totalRequests : ℚ) - 1) + requestTime) /
        (totalRequests : ℚ)
    let errorRate : ℚ :=
      if success then
        (server.metrics.errorRate * ((totalRequests : ℚ) - 1)) / (totalRequests : ℚ)
      else
        (server.metrics.errorRate * ((totalRequests : ℚ) - 1) + 1) / (totalRequests : ℚ)
    { reg with
      servers := setA reg.servers serverName
        { server with
          metrics := { totalRequests := totalRequests,
                       avgResponseTime := avgResponseTime, errorRate := errorRate } } }

/-- `markHealthy(serverName)`. -/
def markHealthy (reg : ServerRegistry) (serverName : String) : ServerRegistry :=
  match lookupA reg.servers serverName with
  | none => reg
  | some server =>
    { reg with
      servers := setA reg.servers serverName { server with status := ServerStatus.active } }

/-- `markUnhealthy(serverName)`: sets the status to `error`. -/
def markUnhealthy (reg : ServerRegistry) (serverName : String) : ServerRegistry :=
  match lookupA reg.servers serverName with
  | none => reg
  | some server =>
    { reg with
      servers := setA reg.servers serverName { server with status := ServerStatus.error } }

/-- `Set.add` on the candidate set of `findServersForIntent` (iteration order
of a JS `Set` is insertion order). -/
def addUnique (l : List String) (x : String) : List String :=
  if x ∈ l then l else l ++ [x]

/-- The candidate names of `findServersForIntent`: union of entity-index,
operation-index and domain-index matches, in insertion order. -/
def intentCandidates (reg : ServerRegistry) (intent : Intent) : List String :=
  let c := intent.entities.foldl
    (fun acc e => (indexGet reg.entityIndex e.type).foldl addUnique acc) []
  let c := (indexGet reg.operationIndex intent.action).foldl addUnique c
  match intent.context with
  | some ctx =>
    match ctx.domain with
    | some d => (indexGet reg.domainIndex d).foldl addUnique c
    | none => c
  | none => c

/-- The `registrations` local of `findServersForIntent`: resolve candidate
names and keep only `active` registrations. -/
def indexRegistrations (reg : ServerRegistry) (intent : Intent) :
    List ServerRegistration :=
  ((intentCandidates reg intent).filterMap (fun n => lookupA reg.servers n)).filter
    (fun r => r.status = ServerStatus.active)

/-- Abstracted fuse.js scorer: given a registration and the search string,
produce a score (0 = perfect match; fuse returns 0 for an exact match on an
indexed key). -/
abbrev FuzzyScore := ServerRegistration → String → ℚ

/-- `fuzzyFindServers(intent)`: search over all stored registrations
(whatever their status) and keep scores below 0.5.  The fuse.js result
ordering is abstracted; results are kept in registry order. -/
def fuzzyFindServers (fuzzy : FuzzyScore) (reg : ServerRegistry) (intent : Intent) :
    List ServerRegistration :=
  let searchTerms := String.intercalate " "
    (intent.action :: (intent.entities.map Entity.type ++ intent.entities.map Entity.value))
  (reg.servers.map Prod.snd).filter (fun r => fuzzy r searchTerms < (1 : ℚ) / 2)

/-- `findServersForIntent(intent)`: index-union matches filtered to `active`,
falling back to fuzzy search when that list is empty. -/
def findServersForIntent (fuzzy : FuzzyScore) (reg : ServerRegistry) (intent : Intent) :
    List ServerRegistration :=
  let registrations := indexRegistrations reg intent
  if registrations.isEmpty then fuzzyFindServers fuzzy reg intent else registrations

/-- The score of `rankServersByRelevance`. -/
def relevanceScore (server : ServerRegistration) (intent : Intent) : ℚ :=
  let entityMatches :=
    (intent.entities.filter (fun e => server.capability.entities.contains e.type)).length
  let s1 : ℚ := (entityMatches : ℚ) * 3
  let s2 : ℚ := s1 + (if server.capability.operations.contains intent.action then 5 else 0)
  let s3 : ℚ := s2 +
    (match intent.context with
     | some ctx =>
       match ctx.domain with
       | some d => if server.capability.domains.contains d then (4 : ℚ) else 0
       | none => 0
     | none => 0)
  let s4 : ℚ := s3 - server.metrics.errorRate * 2
  s4 - server.metrics.avgResponseTime / 1000 * ((1 : ℚ) / 2)

/-- Stable descending insertion on scored registrations (ES2019+ `sort` is
stable; ties keep the original order). -/
def insertScored (x : ServerRegistration × ℚ) :
    List (ServerRegistration × ℚ) → List (ServerRegistration × ℚ)
  | [] => [x]
  | y :: ys => if y.2 ≤ x.2 then x :: y :: ys else y :: insertScored x ys

def sortScored : List (ServerRegistration × ℚ) → List (ServerRegistration × ℚ)
  | [] => []
  | x :: xs => insertScored x (sortScored xs)

/-- `rankServersByRelevance(servers, intent)`: score then stable sort
descending. -/
def rankServersByRelevance (servers : List ServerRegistration) (intent : Intent) :
    List ServerRegistration :=
  (sortScored (servers.map (fun s => (s, relevanceScore s intent)))).map Prod.fst

/-! ## JSON-ish payload values

`routing.params` is `any` in the source; the router builds a flat object and
the validation engine probes it.  JSON arrays never occur in the payloads the
embedded code paths construct or the claims mention, so they are omitted. -/

inductive JVal where
  | null
  | bool (b : Bool)
  | str (s : String)
  | num (q : ℚ)
  | obj (fields : List (String × JVal))

/-- JS truthiness of a payload value (`undefined` is folded into `null`). -/
def truthy : JVal → Bool
  | JVal.null => false
  | JVal.bool b => b
  | JVal.str s => s ≠ ""
  | JVal.num q => q ≠ 0
  | JVal.obj _ => true

/-- Property access `v[key]`, with `undefined` folded into `null`. -/
def getField : JVal → String → JVal
  | JVal.obj fs, key => (lookupA fs key).getD JVal.null
  | _, _ => JVal.null

/-- `Object.keys`. -/
def jKeys : JVal → List String
  | JVal.obj fs => fs.map Prod.fst
  | _ => []

/-- `Object.values`. -/
def jValues : JVal → List JVal
  | JVal.obj fs => fs.map Prod.snd
  | _ => []

mutual

/-- `JSON.stringify` (used only for its length; string escaping is not
needed for the payloads considered). -/
def stringifyJ : JVal → String
  | JVal.null => "null"
  | JVal.bool b => if b then "true" else "false"
  | JVal.str s => "\"" ++ s ++ "\""
  | JVal.num q => toString q
  | JVal.obj fs => "\x7b" ++ stringifyFields fs ++ "\x7d"

/-- The comma-joined field list of `JSON.stringify` on an object. -/
def stringifyFields : List (String × JVal) → String
  | [] => ""
  | [(k, v)] => "\"" ++ k ++ "\":" ++ stringifyJ v
  | (k, v) :: rest => "\"" ++ k ++ "\":" ++ stringifyJ v ++ "," ++ stringifyFields rest

end

/-! ## SemanticRouter (`src/routing/SemanticRouter.ts`) -/

/-- An alternate routing target (the objects built for `alternates` carry no
`reasoning` and no nested alternates). -/
structure AltRoute where
  server : String
  tool : String
  params : JVal
  protocol : String
  confidence : ℚ

structure RoutingDecision where
  server : String
  tool : String
  params : JVal
  protocol : String
  confidence : ℚ
  alternates : List AltRoute
  reasoning : String

/-- `RoutingError` carries the wrapped message (the original intent is
recoverable from the call site). -/
structure RoutingError where
  message : String
  deriving DecidableEq

/-- Router state: the decision cache, a JS `Map` in insertion order. -/
structure SemanticRouter where
  routingCache : List (String × RoutingDecision)

/-- `getCacheKey(intent)`: action, entity `type:value` pairs and filter
`field:operator:value` triples joined by a bar, in intent order. -/
def getCacheKey (intent : Intent) : String :=
  String.intercalate "|"
    (intent.action ::
      (intent.entities.map (fun e => e.type ++ ":" ++ e.value) ++
       intent.filters.map (fun f => f.field ++ ":" ++ f.operator ++ ":" ++ f.value)))

/-- The `operationMap` of `selectTool`. -/
def operationMap (action : String) : List String :=
  if action = "query" then ["list", "get", "find", "search", "query"]
  else if action = "create" then ["create", "add", "insert", "post"]
  else if action = "update" then ["update", "modify", "patch", "put"]
  else if action = "delete" then ["delete", "remove", "destroy"]
  else if action = "sync" then ["sync", "synchronize", "replicate"]
  else if action = "analyze" then ["analyze", "aggregate", "report"]
  else [action]

/-- `selectTool(server, intent)`. -/
def selectTool (server : ServerRegistration) (intent : Intent) : String :=
  let possibleOps := operationMap intent.action
  match possibleOps.find? (fun op => server.capability.operations.contains op) with
  | some op =>
    match intent.entities with
    | [] => op
    | e :: _ => op ++ "_" ++ e.type
  | none => server.capability.operations.headD "query"

/-- `buildParameters(intent)`: filters, filter-role entities, timeframe and
aggregation merged into one flat object. -/
def buildParameters (intent : Intent) : JVal :=
  let p : List (String × JVal) :=
    intent.filters.foldl (fun acc f => setA acc f.field (JVal.str f.value)) []
  let p := intent.entities.foldl
    (fun acc e => if e.role = some "filter" then setA acc e.type (JVal.str e.value) else acc) p
  let p := match intent.timeframe with
    | none => p
    | some tf =>
      let p := match tf.startD with
        | some s => setA p "startDate" (JVal.str s)
        | none => p
      let p := match tf.endD with
        | some s => setA p "endDate" (JVal.str s)
        | none => p
      match tf.relative with
      | some r => setA p "timeframe" (JVal.str r)
      | none => p
  let p := match intent.aggregation with
    | some a => setA p "aggregation" (JVal.str a)
    | none => p
  JVal.obj p

/-- `calculateRoutingConfidence(server, intent)`. -/
def calculateRoutingConfidence (server : ServerRegistration) (intent : Intent) : ℚ :=
  let base : ℚ := (1 : ℚ) / 2
  let supportedEntities :=
    (intent.entities.filter (fun e => server.capability.entities.contains e.type)).length
  let c1 : ℚ := base +
    (supportedEntities : ℚ) / (max intent.entities.length 1 : ℚ) * ((1 : ℚ) / 5)
  let c2 : ℚ := c1 +
    (if server.capability.operations.contains intent.action then (1 : ℚ) / 5 else 0)
  let healthScore : ℚ := 1 - server.metrics.errorRate
  min (c2 + healthScore * ((1 : ℚ) / 10)) 1

/-- `generateRoutingReasoning(server, intent)`. -/
def generateRoutingReasoning (server : ServerRegistration) (intent : Intent) : String :=
  let supportedEntities := (intent.entities.filter
    (fun e => server.capability.entities.contains e.type)).map Entity.type
  let reasons : List String :=
    (if supportedEntities.isEmpty then []
     else ["Supports entities: " ++ String.intercalate ", " supportedEntities])
  let reasons := reasons ++
    (if server.capability.operations.contains intent.action then
      ["Can perform " ++ intent.action ++ " operations"] else [])
  let reasons := reasons ++
    (match intent.context with
     | some ctx =>
       match ctx.domain with
       | some d => if server.capability.domains.contains d then
           ["Specializes in " ++ d] else []
       | none => []
     | none => [])
  let reasons := reasons ++
    (if server.metrics.avgResponseTime < 1000 then ["Fast response time"] else [])
  String.intercalate "; " reasons

/-- The routing decision built by `route` from the ranked candidates. -/
def mkDecision (bestServer : ServerRegistration) (rest : List ServerRegistration)
    (intent : Intent) : RoutingDecision :=
  let tool := selectTool bestServer intent
  let params := buildParameters intent
  { server := bestServer.name, tool := tool, params := params,
    protocol := bestServer.capability.protocol,
    confidence := calculateRoutingConfidence bestServer intent,
    alternates := (rest.take 2).map (fun s =>
      { server := s.name, tool := selectTool s intent, params := params,
        protocol := s.capability.protocol,
        confidence := calculateRoutingConfidence s intent }),
    reasoning := generateRoutingReasoning bestServer intent }

/-- The cache write of `route`: `set`, then if the size exceeds 1000 delete
the first (oldest-inserted) key. -/
def cacheInsert (cache : List (String × RoutingDecision)) (cacheKey : String)
    (decision : RoutingDecision) : List (String × RoutingDecision) :=
  let cache2 := setA cache cacheKey decision
  if cache2.length > 1000 then cache2.tail else cache2

/-- `route(intent)`: cache lookup, candidate search, ranking, tool and
parameter selection, decision caching with FIFO eviction past 1000 entries.
Result paired with the updated router state. -/
def route (fuzzy : FuzzyScore) (reg : ServerRegistry) (router : SemanticRouter)
    (intent : Intent) : Except RoutingError RoutingDecision × SemanticRouter :=
  let cacheKey := getCacheKey intent
  match lookupA router.routingCache cacheKey with
  | some decision => (Except.ok decision, router)
  | none =>
    let candidates := findServersForIntent fuzzy reg intent
    if candidates.isEmpty then
      (Except.error { message := "Failed to route intent: No servers found for intent" },
       router)
    else
      match rankServersByRelevance candidates intent with
      | [] =>
        -- unreachable: ranking a non-empty list is non-empty
        (Except.error { message := "Failed to route intent: No servers found for intent" },
         router)
      | bestServer :: rest =>
        let decision := mkDecision bestServer rest intent
        (Except.ok decision,
         { routingCache := cacheInsert router.routingCache cacheKey decision })

/-! ## ValidationEngine (`src/validation/ValidationEngine.ts`)

`ValidationResult.metadata` (wall-clock `validatedAt` plus a copy of the
inputs) is omitted.  The SQL-injection regex test over string values is
abstracted as a `String → Bool` parameter named `suspicious`; every theorem
below is quantified over it.  A custom validator is a function that can
throw, modelled as `Except String ValidationResult`; `validateOperation`
calls it unguarded, so a thrown error propagates (`Except.error`). -/

structure ValidationResult where
  isValid : Bool
  errors : List String
  warnings : List String
  suggestions : List String
  deriving DecidableEq

structure ValidationRule where
  id : String
  name : String
  type : String
  condition : JVal → Bool
  message : String
  severity : String

structure User where
  role : String
  permissions : List String

abbrev RuleMap := List (String × List ValidationRule)
abbrev CustomValidators := List (String × (JVal → Except String ValidationResult))

/-- `addRule(server, action, rule)`. -/
def addRule (rules : RuleMap) (server action : String) (rule : ValidationRule) : RuleMap :=
  let key := server ++ ":" ++ action
  match lookupA rules key with
  | none => rules ++ [(key, [rule])]
  | some l => setA rules key (l ++ [rule])

/-- `registerValidator(server, validator)`. -/
def registerValidator (vs : CustomValidators) (server : String)
    (validator : JVal → Except String ValidationResult) : CustomValidators :=
  setA vs server validator

/-- `getRules(server, action)`: wildcard rules first, then server-specific
rules. -/
def getRules (rules : RuleMap) (server action : String) : List ValidationRule :=
  let specific := (lookupA rules (server ++ ":" ++ action)).getD []
  let general := (lookupA rules ("*" ++ ":" ++ action)).getD []
  general ++ specific

/-- The two rules of `loadDefaultRules`. -/
def requireDataRule : ValidationRule :=
  { id := "require-data", name := "Require data for create", type := "data",
    condition := fun data => truthy data && !(jKeys data).isEmpty,
    message := "Create operation requires data", severity := "error" }

def requireIdRule : ValidationRule :=
  { id := "require-id", name := "Require ID for update", type := "data",
    condition := fun data =>
      truthy data && (truthy (getField data "id") || truthy (getField data "_id")),
    message := "Update operation requires an ID", severity := "error" }

def loadDefaultRules (rules : RuleMap) : RuleMap :=
  addRule (addRule rules "*" "create" requireDataRule) "*" "update" requireIdRule

/-- The three rules of `loadPropertyManagementRules`. -/
def pwPortfolioRule : ValidationRule :=
  { id := "pw-portfolio-required", name := "Portfolio required", type := "business",
    condition := fun data =>
      truthy (getField data "portfolioId") || truthy (getField data "portfolio"),
    message := "PropertyWare operations require a portfolio", severity := "error" }

def sfCustomerRule : ValidationRule :=
  { id := "sf-customer-required", name := "Customer required", type := "business",
    condition := fun data =>
      truthy (getField data "customerId") || truthy (getField data "customer"),
    message := "ServiceFusion jobs require a customer", severity := "error" }

def woPriorityRule : ValidationRule :=
  { id := "wo-priority-valid", name := "Valid work order priority", type := "business",
    condition := fun data =>
      if !truthy (getField data "work_order") && !truthy (getField data "workOrder") then
        true
      else
        let wo := if truthy (getField data "work_order") then getField data "work_order"
                  else getField data "workOrder"
        let p := getField wo "priority"
        if !truthy p then true
        else match p with
          | JVal.str s => ["emergency", "high", "medium", "low"].contains s
          | _ => false,
    message := "Invalid work order priority", severity := "error" }

def loadPropertyManagementRules (rules : RuleMap) : RuleMap :=
  addRule (addRule (addRule rules "propertyware" "create" pwPortfolioRule)
    "servicefusion" "create" sfCustomerRule) "*" "create" woPriorityRule

/-- The rule map after `initialize()`. -/
def defaultRules : RuleMap := loadPropertyManagementRules (loadDefaultRules [])

/-- `validateParameters(params, intent)` with the injection scan abstracted
as `suspicious`. -/
def validateParameters (suspicious : String → Bool) (params : JVal) (intent : Intent) :
    ValidationResult :=
  let errors : List String :=
    if intent.action = "create" then
      if !truthy params || (jKeys params).isEmpty then ["Create operation requires data"]
      else []
    else if intent.action = "update" then
      if !truthy params || !truthy (getField params "id") then
        ["Update operation requires an ID"]
      else []
    else if intent.action = "delete" then
      if !truthy params || !truthy (getField params "id") then
        ["Delete operation requires an ID"]
      else []
    else []
  let errors := errors ++
    (if truthy params then
      (jValues params).filterMap (fun v =>
        match v with
        | JVal.str s => if suspicious s then some "Potentially malicious input detected"
                        else none
        | _ => none)
     else [])
  let warnings : List String :=
    if truthy params then
      if (stringifyJ params).length > 100000 then
        ["Large parameter size may affect performance"]
      else []
    else []
  { isValid := errors.isEmpty, errors := errors, warnings := warnings, suggestions := [] }

/-- The `requiredPermissions` table of `validatePermissions` (fallback
`['admin']`). -/
def requiredPermissions (action : String) : List String :=
  if action = "create" then ["write", "admin"]
  else if action = "update" then ["write", "admin"]
  else if action = "delete" then ["admin"]
  else if action = "sync" then ["admin"]
  else if action = "query" then ["read", "write", "admin"]
  else ["admin"]

/-- `validatePermissions(user, action, server)`. -/
def validatePermissions (user : User) (action : String) (server : String) :
    ValidationResult :=
  let required := requiredPermissions action
  let hasPermission :=
    required.any (fun perm => user.permissions.contains perm || user.role == "admin")
  let errors : List String :=
    if !hasPermission then ["User lacks permission for " ++ action ++ " operation"] else []
  let errors := errors ++
    (if server == "propertyware" && user.role == "tenant" then
      ["Tenants cannot access PropertyWare directly"] else [])
  { isValid := errors.isEmpty, errors := errors, warnings := [], suggestions := [] }

/-- `validateOperation(routing, intent, context)`.  The `context` argument is
reduced to its only read field, `context?.currentUser`.  Business rules come
from `rules.get(server + ":" + action)` only — the wildcard entries are not
consulted here.  The custom validator call is unguarded: a throwing validator
makes the whole call throw. -/
def validateOperation (suspicious : String → Bool) (rules : RuleMap)
    (customValidators : CustomValidators) (routing : RoutingDecision) (intent : Intent)
    (context : Option User) : Except String ValidationResult :=
  let paramValidation := validateParameters suspicious routing.params intent
  let errors := paramValidation.errors
  let warnings := paramValidation.warnings
  let errors := errors ++
    (match context with
     | some user => (validatePermissions user intent.action routing.server).errors
     | none => [])
  let businessRules := (lookupA rules (routing.server ++ ":" ++ intent.action)).getD []
  let errors := errors ++ businessRules.filterMap (fun rule =>
    if !rule.condition routing.params && rule.severity == "error" then some rule.message
    else none)
  let warnings := warnings ++ businessRules.filterMap (fun rule =>
    if !rule.condition routing.params && rule.severity == "warning" then some rule.message
    else none)
  match lookupA customValidators routing.server with
  | none =>
    Except.ok { isValid := errors.isEmpty, errors := errors, warnings := warnings,
                suggestions := [] }
  | some validator =>
    match validator routing.params with
    | Except.error e => Except.error e
    | Except.ok customResult =>
      let errors := errors ++ customResult.errors
      let warnings := warnings ++ customResult.warnings
      let suggestions := customResult.suggestions
      Except.ok { isValid := errors.isEmpty, errors := errors, warnings := warnings,
                  suggestions := suggestions }

/-! ## LearningSystem (`src/learning/LearningSystem.ts`)

Wall-clock times are `Nat` parameters (`now`).  Disk persistence (`save`,
`loadLearningData`) is external I/O and omitted; it never feeds back into the
in-memory state. -/

structure QueryPattern where
  pattern : String
  frequency : Nat
  avgDuration : ℚ
  successRate : ℚ
  lastUsed : Nat
  deriving Repr

structure UserFeedback where
  helpful : Bool
  rating : Option ℚ
  comment : Option String
  correctServer : Option String
  correctAction : Option String

structure PatternPerf where
  count : Nat
  successRate : ℚ
  deriving Repr

structure ServerPerformance where
  totalRequests : Nat
  successfulRequests : Nat
  avgResponseTime : ℚ
  errorRate : ℚ
  patterns : List (String × PatternPerf)
  deriving Repr

/-- A recorded interaction (`LearningInteraction`); the opaque `result`
payload is unused by every embedded method and omitted. -/
structure LearningInteraction where
  query : String
  intent : Intent
  routing : RoutingDecision
  duration : ℚ
  validation : ValidationResult
  timestamp : Nat
  feedback : Option UserFeedback

structure LearningSystem where
  interactions : List LearningInteraction
  patterns : List (String × QueryPattern)
  serverPerformance : List (String × ServerPerformance)
  maxHistorySize : Nat

def emptyLearning : LearningSystem :=
  { interactions := [], patterns := [], serverPerformance := [], maxHistorySize := 1000 }

/-- JS string sort (lexicographic by code unit), as a stable insertion
sort. -/
def insertStr (x : String) : List String → List String
  | [] => [x]
  | y :: ys => if x < y then x :: y :: ys else y :: insertStr x ys

def sortStr : List String → List String
  | [] => []
  | x :: xs => insertStr x (sortStr xs)

/-- `getPatternKey(intent)`: action, sorted entity types, relative timeframe,
empty segments dropped (`filter(Boolean)`), joined by colons. -/
def getPatternKey (intent : Intent) : String :=
  let parts := intent.action :: (sortStr (intent.entities.map Entity.type) ++
    [(intent.timeframe.bind TimeRange.relative).getD ""])
  String.intercalate ":" (parts.filter (fun s => s ≠ ""))

/-- `updatePatterns(interaction)` acting on the pattern map. -/
def updatePatterns (patterns : List (String × QueryPattern))
    (interaction : LearningInteraction) (now : Nat) : List (String × QueryPattern) :=
  let key := getPatternKey interaction.intent
  let p := (lookupA patterns key).getD
    { pattern := interaction.query, frequency := 0, avgDuration := 0,
      successRate := 0, lastUsed := now }
  let frequency := p.frequency + 1
  let avgDuration :=
    (p.avgDuration * ((frequency : ℚ) - 1) + interaction.duration) / (frequency : ℚ)
  let success : ℚ := if interaction.validation.isValid then 1 else 0
  let successRate :=
    (p.successRate * ((frequency : ℚ) - 1) + success) / (frequency : ℚ)
  setA patterns key
    { p with frequency := frequency, avgDuration := avgDuration,
             successRate := successRate, lastUsed := now }

/-- `updateServerPerformance(interaction)` acting on the performance map. -/
def updateServerPerformance (perfMap : List (String × ServerPerformance))
    (interaction : LearningInteraction) : List (String × ServerPerformance) :=
  let server := interaction.routing.server
  let perf := (lookupA perfMap server).getD
    { totalRequests := 0, successfulRequests := 0, avgResponseTime := 0,
      errorRate := 0, patterns := [] }
  let totalRequests := perf.totalRequests + 1
  let successfulRequests :=
    perf.successfulRequests + (if interaction.validation.isValid then 1 else 0)
  let avgResponseTime :=
    (perf.avgResponseTime * ((totalRequests : ℚ) - 1) + interaction.duration) /
      (totalRequests : ℚ)
  let errorRate : ℚ := 1 - (successfulRequests : ℚ) / (totalRequests : ℚ)
  let patternKey := getPatternKey interaction.intent
  let pp := (lookupA perf.patterns patternKey).getD { count := 0, successRate := 0 }
  let count := pp.count + 1
  let ppRate :=
    (pp.successRate * ((count : ℚ) - 1) +
      (if interaction.validation.isValid then 1 else 0)) / (count : ℚ)
  setA perfMap server
    { totalRequests := totalRequests, successfulRequests := successfulRequests,
      avgResponseTime := avgResponseTime, errorRate := errorRate,
      patterns := setA perf.patterns patternKey { count := count, successRate := ppRate } }

/-- `recordInteraction(interaction)`: stamp, append to the bounded history
(`slice(-maxHistorySize)`), update patterns and server performance. -/
def recordInteraction (st : LearningSystem) (interaction0 : LearningInteraction)
    (now : Nat) : LearningSystem :=
  let interaction := { interaction0 with timestamp := now }
  let interactions := st.interactions ++ [interaction]
  let interactions :=
    if interactions.length > st.maxHistorySize then
      interactions.drop (interactions.length - st.maxHistorySize)
    else interactions
  { st with
    interactions := interactions,
    patterns := updatePatterns st.patterns interaction now,
    serverPerformance := updateServerPerformance st.serverPerformance interaction }

/-- The interaction key used by `recordFeedback`
(`timestamp.getTime() + "-" + query`). -/
def interactionIdOf (i : LearningInteraction) : String :=
  toString i.timestamp ++ "-" ++ i.query

/-- `adjustServerPreference(intent, preferredServer, currentServer)`: bump
the preferred server's counters and the current server's error rate — each
only when that server already has a performance entry. -/
def adjustServerPreference (perfMap : List (String × ServerPerformance))
    (preferredServer currentServer : String) : List (String × ServerPerformance) :=
  let perfMap1 :=
    match lookupA perfMap preferredServer with
    | none => perfMap
    | some preferred => setA perfMap preferredServer
        { preferred with successfulRequests := preferred.successfulRequests + 1,
                         totalRequests := preferred.totalRequests + 1 }
  match lookupA perfMap1 currentServer with
  | none => perfMap1
  | some current => setA perfMap1 currentServer
      { current with errorRate := min (current.errorRate + 1 / 10) 1 }

/-- Update the first list element satisfying the test (in-place object
mutation of the found interaction). -/
def updateFirst {α : Type} (p : α → Bool) (f : α → α) : List α → List α
  | [] => []
  | x :: xs => if p x then f x :: xs else x :: updateFirst p f xs

/-- `recordFeedback(interactionId, feedback)`. -/
def recordFeedback (st : LearningSystem) (interactionId : String)
    (feedback : UserFeedback) : LearningSystem :=
  match st.interactions.find? (fun i => interactionIdOf i == interactionId) with
  | none => st
  | some interaction =>
    let interactions := updateFirst (fun i => interactionIdOf i == interactionId)
      (fun i => { i with feedback := some feedback }) st.interactions
    let serverPerformance :=
      match feedback.correctServer with
      | some c =>
        if !feedback.helpful && c ≠ "" then
          adjustServerPreference st.serverPerformance c interaction.routing.server
        else st.serverPerformance
      | none => st.serverPerformance
    { st with interactions := interactions, serverPerformance := serverPerformance }

/-! ## Claim C10: updateMetrics on an unknown server name -/

/-- C10: for every registry state and every server name not present in the
registry, `updateMetrics(name, requestTime, success)` is a silent no-op: the
whole registry state (registrations, metrics, indices) is returned
unchanged. -/
theorem c10_updateMetrics_unknown_noop (reg : ServerRegistry) (serverName : String)
    (requestTime : ℚ) (success : Bool)
    (h : lookupA reg.servers serverName = none) :
    updateMetrics reg serverName requestTime success = reg := by
  unfold updateMetrics
  rw [h]

/-- C10 witness: the empty registry does not contain "ghost", and updating
its metrics returns the registry unchanged. -/
theorem c10_witness :
    lookupA emptyRegistry.servers "ghost" = none ∧
      updateMetrics emptyRegistry "ghost" 5 false = emptyRegistry :=
  ⟨rfl, c10_updateMetrics_unknown_noop emptyRegistry "ghost" 5 false rfl⟩

/-! ## Claim C6: the routing cache key is order-sensitive -/

/-- C6 counterexample: two intents with the same action and the same
multiset of entity `(type, value)` pairs, differing only in entity order,
get different cache keys — `getCacheKey` does not sort before joining. -/
theorem c6_counterexample :
    getCacheKey { action := "query",
                  entities := [{ type := "a", value := "1", role := none },
                               { type := "b", value := "2", role := none }],
                  filters := [], timeframe := none, aggregation := none,
                  context := none } ≠
    getCacheKey { action := "query",
                  entities := [{ type := "b", value := "2", role := none },
                               { type := "a", value := "1", role := none }],
                  filters := [], timeframe := none, aggregation := none,
                  context := none } := by
  decide

/-- C6 amended: the cache key is a function of the action, the entity
`(type, value)` pairs in intent order, and the filter
`(field, operator, value)` triples in intent order; it is canonical only up
to these sequences (no sorting happens), so reordering entities or filters
changes the key. -/
theorem c6_cache_key_sequences (i1 i2 : Intent)
    (ha : i1.action = i2.action)
    (he : i1.entities.map (fun e => (e.type, e.value)) =
          i2.entities.map (fun e => (e.type, e.value)))
    (hf : i1.filters.map (fun f => (f.field, f.operator, f.value)) =
          i2.filters.map (fun f => (f.field, f.operator, f.value))) :
    getCacheKey i1 = getCacheKey i2 := by
  unfold getCacheKey
  have he2 : i1.entities.map (fun e => e.type ++ ":" ++ e.value) =
      i2.entities.map (fun e => e.type ++ ":" ++ e.value) := by
    have h1 : ∀ l : List Entity,
        l.map (fun e => e.type ++ ":" ++ e.value) =
          (l.map (fun e => (e.type, e.value))).map (fun p => p.1 ++ ":" ++ p.2) := by
      intro l
      rw [List.map_map]
      rfl
    rw [h1, h1, he]
  have hf2 : i1.filters.map (fun f => f.field ++ ":" ++ f.operator ++ ":" ++ f.value) =
      i2.filters.map (fun f => f.field ++ ":" ++ f.operator ++ ":" ++ f.value) := by
    have h1 : ∀ l : List Filter,
        l.map (fun f => f.field ++ ":" ++ f.operator ++ ":" ++ f.value) =
          (l.map (fun f => (f.field, f.operator, f.value))).map
            (fun p => p.1 ++ ":" ++ p.2.1 ++ ":" ++ p.2.2) := by
      intro l
      rw [List.map_map]
      rfl
    rw [h1, h1, hf]
  rw [ha, he2, hf2]

/-- C6 witness: two intents agreeing on action, entity pairs and filter
triples in order (differing in entity roles and timeframe) receive the same
cache key. -/
theorem c6_witness :
    getCacheKey { action := "query",
                  entities := [{ type := "a", value := "1", role := some "filter" }],
                  filters := [], timeframe := none, aggregation := none,
                  context := none } =
    getCacheKey { action := "query",
                  entities := [{ type := "a", value := "1", role := none }],
                  filters := [],
                  timeframe := some { startD := none, endD := none, relative := some "today" },
                  aggregation := none, context := none } :=
  c6_cache_key_sequences _ _ rfl rfl rfl

/-! ## Claim C1: the two-server routing scenario -/

/-- Capability of scenario server A: entities `[work_order]`, operations
`[query, create]`. -/
def capA : ServerCapability :=
  { protocol := "mcp", domains := [], entities := ["work_order"],
    operations := ["query", "create"], description := "server A" }

/-- Capability of scenario server B: entities `[job]`, operations
`[query]`. -/
def capB : ServerCapability :=
  { protocol := "mcp", domains := [], entities := ["job"],
    operations := ["query"], description := "server B" }

/-- Registry with exactly A and B registered (hence both active with zeroed
metrics). -/
def regAB : ServerRegistry := register (register emptyRegistry "A" capA) "B" capB

/-- A fuzzy scorer that matches nothing (irrelevant for this scenario: the
index union is non-empty for both intents). -/
def noFuzzy : FuzzyScore := fun _ _ => 1

def intentCreateWorkOrder : Intent :=
  { action := "create",
    entities := [{ type := "work_order", value := "wo1", role := none }],
    filters := [], timeframe := none, aggregation := none, context := none }

def intentCreateJob : Intent :=
  { action := "create",
    entities := [{ type := "job", value := "j1", role := none }],
    filters := [], timeframe := none, aggregation := none, context := none }

def emptyRouter : SemanticRouter := { routingCache := [] }

/-- C1 counterexample: the claim says routing the intent
`{action: create, entities: [{type: job}]}` raises `RoutingError` because B
lacks `create`.  It does not: `findServersForIntent` also matches server A
through the operation index (`create`), A outranks B (operation match 5 >
entity match 3), and `selectTool` composes its `create` operation with the
first entity type, so the call succeeds with server A and tool
`create_job`. -/
theorem c1_counterexample :
    (route noFuzzy regAB emptyRouter intentCreateJob).1.map
      (fun d => (d.server, d.tool)) = Except.ok ("A", "create_job") := by
  with_unfolding_all rfl

/-- C1 amended: with exactly A and B registered and active, routing
`{action: create, entities: [{type: work_order}]}` picks server A with tool
`create_work_order` (as claimed), and routing
`{action: create, entities: [{type: job}]}` does not raise `RoutingError`
but also picks server A — found via the operation index — with tool
`create_job`. -/
theorem c1_route_scenario :
    (route noFuzzy regAB emptyRouter intentCreateWorkOrder).1.map
        (fun d => (d.server, d.tool)) = Except.ok ("A", "create_work_order") ∧
    (route noFuzzy regAB emptyRouter intentCreateJob).1.map
        (fun d => (d.server, d.tool)) = Except.ok ("A", "create_job") := by
  constructor
  · with_unfolding_all rfl
  · with_unfolding_all rfl

/-! ## Claim C2: findServersForIntent and the `active` filter -/

def capAlpha : ServerCapability :=
  { protocol := "mcp", domains := [], entities := ["x"],
    operations := ["y"], description := "alpha server" }

/-- A registry whose only server has been marked unhealthy (status
`error`). -/
def regAlphaDown : ServerRegistry :=
  markUnhealthy (register emptyRegistry "alpha" capAlpha) "alpha"

/-- An intent matching nothing in the indices, whose fuzzy search text is
exactly the server name. -/
def intentAlpha : Intent :=
  { action := "alpha", entities := [], filters := [], timeframe := none,
    aggregation := none, context := none }

/-- A fuse-consistent scorer: an exact match of the search text against the
indexed `name` key scores 0 (fuse.js returns score 0 for exact matches),
anything else scores 1. -/
def exactNameScore : FuzzyScore := fun r terms => if r.name = terms then 0 else 1

/-- C2 counterexample: the claim says every registration returned by
`findServersForIntent` is `active`, including results of the fuzzy-search
fallback.  The fallback searches all stored registrations and never filters
by status: with the single registered server marked unhealthy (status
`error`), the index union is empty and the fuzzy fallback returns that
non-active registration. -/
theorem c2_counterexample :
    ¬ (∀ r ∈ findServersForIntent exactNameScore regAlphaDown intentAlpha,
        r.status = ServerStatus.active) := by
  with_unfolding_all decide

/-- C2 amended: when the index union is non-empty (so the fuzzy fallback is
not taken), every registration returned by `findServersForIntent` has status
`active`; the fuzzy fallback applies no status filter. -/
theorem c2_index_path_active (fuzzy : FuzzyScore) (reg : ServerRegistry)
    (intent : Intent) (r : ServerRegistration)
    (hne : indexRegistrations reg intent ≠ [])
    (hmem : r ∈ findServersForIntent fuzzy reg intent) :
    r.status = ServerStatus.active := by
  unfold findServersForIntent at hmem
  rw [if_neg (by simpa [List.isEmpty_iff] using hne)] at hmem
  unfold indexRegistrations at hmem
  have := (List.mem_filter.mp hmem).2
  simpa using this

/-- C2 witness: with exactly server A and B registered, the work-order
create intent has a non-empty index union and A's returned registration is
active. -/
theorem c2_witness :
    indexRegistrations regAB intentCreateWorkOrder ≠ [] ∧
      (∀ r ∈ findServersForIntent noFuzzy regAB intentCreateWorkOrder,
        r.status = ServerStatus.active) :=
  ⟨by with_unfolding_all decide,
   fun r hmem => c2_index_path_active noFuzzy regAB intentCreateWorkOrder r
     (by with_unfolding_all decide) hmem⟩

/-! ## Claim C4: a throwing custom validator aborts validateOperation -/

/-- The routed decision used for the validator claims: server `s`, empty
params. -/
def routing4 : RoutingDecision :=
  { server := "s", tool := "query", params := JVal.obj [], protocol := "mcp",
    confidence := 0, alternates := [], reasoning := "" }

def intent4 : Intent :=
  { action := "query", entities := [], filters := [], timeframe := none,
    aggregation := none, context := none }

/-- A registered custom validator for server `s` that throws. -/
def throwingValidators : CustomValidators :=
  registerValidator [] "s" (fun _ => Except.error "validator boom")

/-- C4: the claim (and the spec) says a throwing custom validator is caught
and contributes no findings, with `validateOperation` still returning
normally.  The code calls the validator unguarded, so the thrown error
propagates out of `validateOperation` instead of being swallowed: with the
throwing validator registered the call throws (`Except.error`), while with
no validator it returns normally with a clean result.  The spec itself
flags the unguarded call site and mandates catch-and-continue, so this is a
divergence of the code from the documented intent. -/
theorem c4_throwing_validator_propagates (suspicious : String → Bool) :
    validateOperation suspicious defaultRules throwingValidators routing4 intent4 none
        = Except.error "validator boom" ∧
      validateOperation suspicious defaultRules [] routing4 intent4 none
        = Except.ok { isValid := true, errors := [], warnings := [], suggestions := [] } :=
  ⟨rfl, rfl⟩

/-! ## Claim C5: wildcard business rules are not applied -/

/-- A create payload whose work-order priority is invalid: the wildcard rule
`wo-priority-valid` (registered under `*:create` with severity `error`)
rejects it. -/
def params5 : JVal :=
  JVal.obj [("work_order", JVal.obj [("priority", JVal.str "bogus")])]

def routing5 : RoutingDecision :=
  { server := "s", tool := "create_work_order", params := params5, protocol := "mcp",
    confidence := 0, alternates := [], reasoning := "" }

def intent5 : Intent :=
  { action := "create", entities := [], filters := [], timeframe := none,
    aggregation := none, context := none }

/-- C5: the claim says `validateOperation` applies both `server:action` and
wildcard `*:action` rules, a failing wildcard error rule forcing
`isValid = false`.  The code reads only `rules.get(server + ":" + action)`:
for server `s` there are no specific rules, so the failing wildcard rule
`wo-priority-valid` is ignored and the call validates the payload
(`isValid = true`, no errors) — even though `getRules` (which does merge the
wildcard bucket) reports that rule as failing with severity `error`. -/
theorem c5_wildcard_rules_skipped (suspicious : String → Bool) :
    validateOperation suspicious defaultRules [] routing5 intent5 none
        = Except.ok { isValid := true, errors := [], warnings := [], suggestions := [] } ∧
      (getRules defaultRules "s" "create").map
          (fun rule => (rule.condition params5, rule.severity, rule.message))
        = [(true, "error", "Create operation requires data"),
           (false, "error", "Invalid work order priority")] :=
  ⟨rfl, rfl⟩

/-! ## Claim C7: decision-cache hit behavior, bound and FIFO eviction -/

theorem insertScored_length (x : ServerRegistration × ℚ)
    (l : List (ServerRegistration × ℚ)) :
    (insertScored x l).length = l.length + 1 := by
  induction l with
  | nil => rfl
  | cons y ys ih =>
    by_cases h : y.2 ≤ x.2
    · simp [insertScored, h]
    · simp [insertScored, h, ih]

theorem sortScored_length (l : List (ServerRegistration × ℚ)) :
    (sortScored l).length = l.length := by
  induction l with
  | nil => rfl
  | cons x xs ih => simp [sortScored, insertScored_length, ih]

theorem rankServersByRelevance_ne_nil (servers : List ServerRegistration)
    (intent : Intent) (h : servers ≠ []) :
    rankServersByRelevance servers intent ≠ [] := by
  unfold rankServersByRelevance
  intro hc
  apply h
  have hlen := congrArg List.length hc
  simp [sortScored_length] at hlen
  exact hlen

theorem cacheInsert_length (cache : List (String × RoutingDecision)) (k : String)
    (d : RoutingDecision) (h : lookupA cache k = none) (hlen : cache.length ≤ 1000) :
    (cacheInsert cache k d).length ≤ 1000 := by
  unfold cacheInsert
  rw [setA_of_lookupA_none _ _ _ h]
  by_cases hb : (cache ++ [(k, d)]).length > 1000
  · rw [if_pos hb]
    simpa using hlen
  · rw [if_neg hb]
    simp only [List.length_append, List.length_cons, List.length_nil] at hb ⊢
    omega

theorem cacheInsert_full (cache : List (String × RoutingDecision)) (k : String)
    (d : RoutingDecision) (h : lookupA cache k = none) (hlen : cache.length = 1000) :
    cacheInsert cache k d = cache.tail ++ [(k, d)] := by
  unfold cacheInsert
  rw [setA_of_lookupA_none _ _ _ h]
  have hgt : (cache ++ [(k, d)]).length > 1000 := by simp [hlen]
  rw [if_pos hgt]
  cases cache with
  | nil => simp at hlen
  | cons a l => simp

/-- C7: the decision cache of `route`.  (a) On a hit (the intent's cache key
is bound in the cache) the stored decision is returned unchanged and the
router state is untouched; the equation holds for every registry, so the
registry is not consulted and nothing is re-ranked.  (b) `route` preserves
the cache bound of 1000 entries.  (c) On a miss that overflows a full cache,
the evicted entry is the oldest-inserted one: the new cache is the old cache
minus its first entry, with the new key appended (FIFO, independent of hit
recency). -/
theorem c7_cache_behavior (fuzzy : FuzzyScore) (reg : ServerRegistry)
    (router : SemanticRouter) (intent : Intent) :
    (∀ d, lookupA router.routingCache (getCacheKey intent) = some d →
        route fuzzy reg router intent = (Except.ok d, router)) ∧
      (router.routingCache.length ≤ 1000 →
        (route fuzzy reg router intent).2.routingCache.length ≤ 1000) ∧
      (lookupA router.routingCache (getCacheKey intent) = none →
        router.routingCache.length = 1000 →
        findServersForIntent fuzzy reg intent ≠ [] →
        ∃ d, route fuzzy reg router intent =
          (Except.ok d,
           { routingCache := router.routingCache.tail ++ [(getCacheKey intent, d)] })) := by
  refine ⟨?_, ?_, ?_⟩
  · intro d hd
    simp only [route, hd]
  · intro hlen
    simp only [route]
    cases hl : lookupA router.routingCache (getCacheKey intent) with
    | some d => simpa using hlen
    | none =>
      by_cases hc : (findServersForIntent fuzzy reg intent).isEmpty
      · simp only [if_pos hc]
        simpa using hlen
      · simp only [if_neg hc]
        cases hr : rankServersByRelevance (findServersForIntent fuzzy reg intent) intent with
        | nil => simpa using hlen
        | cons best rest =>
          simpa using cacheInsert_length router.routingCache (getCacheKey intent)
            (mkDecision best rest intent) hl hlen
  · intro hnone hfull hcand
    simp only [route, hnone]
    have hc : ¬ (findServersForIntent fuzzy reg intent).isEmpty := by
      simpa [List.isEmpty_iff] using hcand
    simp only [if_neg hc]
    obtain ⟨best, rest, hr⟩ :=
      List.exists_cons_of_ne_nil (rankServersByRelevance_ne_nil _ intent hcand)
    rw [hr]
    refine ⟨mkDecision best rest intent, ?_⟩
    show (Except.ok (mkDecision best rest intent),
        ({ routingCache := cacheInsert router.routingCache (getCacheKey intent)
            (mkDecision best rest intent) } : SemanticRouter)) = _
    rw [cacheInsert_full router.routingCache (getCacheKey intent)
      (mkDecision best rest intent) hnone hfull]

/-- A dummy cached decision for the C7 witness. -/
def d0 : RoutingDecision :=
  { server := "A", tool := "list", params := JVal.obj [], protocol := "mcp",
    confidence := 1, alternates := [], reasoning := "" }

def intentC7 : Intent :=
  { action := "query", entities := [], filters := [], timeframe := none,
    aggregation := none, context := none }

/-- Router whose cache holds the key of `intentC7`. -/
def routerHit : SemanticRouter := { routingCache := [("query", d0)] }

/-- Router with a full cache of 1000 entries, none bound to the key of
`intentC7`. -/
def routerBig : SemanticRouter := { routingCache := List.replicate 1000 ("other", d0) }

theorem lookupA_replicate_none {α : Type} (n : Nat) (k k' : String) (v : α)
    (h : k ≠ k') : lookupA (List.replicate n (k', v)) k = none := by
  induction n with
  | zero => rfl
  | succ m ih =>
    have h2 : ¬ k' = k := fun hh => h hh.symm
    simp [List.replicate_succ, lookupA, h2, ih]

/-- C7 witness: a cache hit returns the stored decision with the router
untouched; on the full 1000-entry cache a miss stays within the bound and
evicts the oldest entry. -/
theorem c7_witness :
    route noFuzzy regAB routerHit intentC7 = (Except.ok d0, routerHit) ∧
      (route noFuzzy regAB routerBig intentC7).2.routingCache.length ≤ 1000 ∧
      (∃ d, route noFuzzy regAB routerBig intentC7 =
        (Except.ok d,
         { routingCache := routerBig.routingCache.tail ++ [(getCacheKey intentC7, d)] })) :=
  have hbig : routerBig.routingCache.length = 1000 := by
    show (List.replicate 1000 ("other", d0)).length = 1000
    rw [List.length_replicate]
  ⟨(c7_cache_behavior noFuzzy regAB routerHit intentC7).1 d0 rfl,
   (c7_cache_behavior noFuzzy regAB routerBig intentC7).2.1 (le_of_eq hbig),
   (c7_cache_behavior noFuzzy regAB routerBig intentC7).2.2
     (lookupA_replicate_none 1000 (getCacheKey intentC7) "other" d0 (by decide))
     hbig
     (by with_unfolding_all decide)⟩

/-! ## Claim C8: feedback naming a correct server -/

/-- C8 amended: when feedback on a recorded interaction routed to server A
signals dissatisfaction and names `correctServer = B`, and **both A and B
already have entries in the server-performance map**, then B's successful
and total request counters each increase by one and A's stored `errorRate`
becomes `min(errorRate + 0.1, 1)` — a strict increase whenever A's previous
`errorRate` is below 1.  (The unamended claim fails when B has no entry:
`adjustServerPreference` only touches existing entries.) -/
theorem c8_feedback_adjusts (st : LearningSystem) (fid : String) (fb : UserFeedback)
    (i : LearningInteraction) (b : String) (pB pA : ServerPerformance)
    (hfind : st.interactions.find? (fun j => interactionIdOf j == fid) = some i)
    (hhelp : fb.helpful = false)
    (hcs : fb.correctServer = some b)
    (hbne : b ≠ "")
    (hBA : b ≠ i.routing.server)
    (hB : lookupA st.serverPerformance b = some pB)
    (hA : lookupA st.serverPerformance i.routing.server = some pA)
    (hlt : pA.errorRate < 1) :
    lookupA (recordFeedback st fid fb).serverPerformance b =
        some { pB with successfulRequests := pB.successfulRequests + 1,
                       totalRequests := pB.totalRequests + 1 } ∧
      lookupA (recordFeedback st fid fb).serverPerformance i.routing.server =
        some { pA with errorRate := min (pA.errorRate + 1 / 10) 1 } ∧
      pA.errorRate < min (pA.errorRate + 1 / 10) 1 := by
  have hsp : (recordFeedback st fid fb).serverPerformance =
      adjustServerPreference st.serverPerformance b i.routing.server := by
    simp only [recordFeedback, hfind, hcs, hhelp]
    simp [hbne]
  have hadj : adjustServerPreference st.serverPerformance b i.routing.server =
      setA (setA st.serverPerformance b
          { pB with successfulRequests := pB.successfulRequests + 1,
                    totalRequests := pB.totalRequests + 1 })
        i.routing.server { pA with errorRate := min (pA.errorRate + 1 / 10) 1 } := by
    simp only [adjustServerPreference, hB]
    have h1 : lookupA (setA st.serverPerformance b
        { pB with successfulRequests := pB.successfulRequests + 1,
                  totalRequests := pB.totalRequests + 1 }) i.routing.server = some pA := by
      rw [lookupA_setA_ne _ _ _ _ (Ne.symm hBA)]
      exact hA
    rw [h1]
  refine ⟨?_, ?_, ?_⟩
  · rw [hsp, hadj, lookupA_setA_ne _ _ _ _ hBA, lookupA_setA_self]
  · rw [hsp, hadj, lookupA_setA_self]
  · exact lt_min (by linarith) hlt

/-! Concrete learning-system scenario for C8. -/

def intentC8 : Intent :=
  { action := "query", entities := [], filters := [], timeframe := none,
    aggregation := none, context := none }

def routingC8 : RoutingDecision :=
  { server := "A", tool := "list", params := JVal.obj [], protocol := "mcp",
    confidence := 1, alternates := [], reasoning := "" }

def validC8 : ValidationResult :=
  { isValid := true, errors := [], warnings := [], suggestions := [] }

/-- An interaction routed to server A. -/
def interC8 : LearningInteraction :=
  { query := "q", intent := intentC8, routing := routingC8, duration := 0,
    validation := validC8, timestamp := 0, feedback := none }

/-- An interaction routed to server B. -/
def interC8B : LearningInteraction :=
  { query := "r", intent := intentC8, routing := { routingC8 with server := "B" },
    duration := 0, validation := validC8, timestamp := 0, feedback := none }

/-- State with a single interaction recorded, routed to A: only A has a
performance entry. -/
def stC8 : LearningSystem := recordInteraction emptyLearning interC8 5

/-- Dissatisfied feedback naming B as the correct server. -/
def fbB : UserFeedback :=
  { helpful := false, rating := none, comment := none, correctServer := some "B",
    correctAction := none }

/-- C8 counterexample: for an interaction routed to A where B has never
served a request, dissatisfied feedback naming `correctServer = B` does not
create or increase any counters for B — B is absent from the
server-performance map before and after, so its successful-request count
does not strictly increase. -/
theorem c8_counterexample :
    lookupA stC8.serverPerformance "B" = none ∧
      lookupA (recordFeedback stC8 "5-q" fbB).serverPerformance "B" = none := by
  constructor
  · with_unfolding_all rfl
  · with_unfolding_all rfl

/-- State with interactions recorded for both A and B. -/
def stAB : LearningSystem :=
  recordInteraction (recordInteraction emptyLearning interC8 1) interC8B 2

/-- C8 witness: with both A and B in the performance map, feedback on the
interaction routed to A naming `correctServer = B` bumps B's counters from
(1, 1) to (2, 2) and raises A's errorRate from 0 to min(0 + 0.1, 1). -/
theorem c8_witness :
    lookupA (recordFeedback stAB "1-q" fbB).serverPerformance "B" =
        some { totalRequests := 2, successfulRequests := 2, avgResponseTime := 0,
               errorRate := 0, patterns := [("query", { count := 1, successRate := 1 })] } ∧
      lookupA (recordFeedback stAB "1-q" fbB).serverPerformance "A" =
        some { totalRequests := 1, successfulRequests := 1, avgResponseTime := 0,
               errorRate := min (0 + 1 / 10) 1,
               patterns := [("query", { count := 1, successRate := 1 })] } ∧
      (0 : ℚ) < min (0 + 1 / 10) 1 :=
  c8_feedback_adjusts stAB "1-q" fbB { interC8 with timestamp := 1 } "B"
    { totalRequests := 1, successfulRequests := 1, avgResponseTime := 0,
      errorRate := 0, patterns := [("query", { count := 1, successRate := 1 })] }
    { totalRequests := 1, successfulRequests := 1, avgResponseTime := 0,
      errorRate := 0, patterns := [("query", { count := 1, successRate := 1 })] }
    (by with_unfolding_all rfl) rfl rfl (by decide) (by decide)
    (by with_unfolding_all rfl) (by with_unfolding_all rfl) (by norm_num)

/-! ## Claim C9: the incremental pattern statistics equal the batch means -/

/-- Auxiliary invariant for C9: folding `updatePatterns` over interactions
sharing pattern key `k`, starting from a state where `k` is bound to `p`,
adds the interaction count to the frequency and the validity/duration sums
to the rate and average (in multiplied-out form). -/
theorem updatePatterns_fold_invariant (k : String) :
    ∀ (L : List (LearningInteraction × Nat)) (pats : List (String × QueryPattern))
      (p : QueryPattern),
      lookupA pats k = some p →
      (∀ x ∈ L, getPatternKey x.1.intent = k) →
      ∃ p2, lookupA (L.foldl (fun acc x => updatePatterns acc x.1 x.2) pats) k = some p2 ∧
        p2.frequency = p.frequency + L.length ∧
        p2.successRate * (p2.frequency : ℚ) =
          p.successRate * (p.frequency : ℚ) +
            (L.map (fun x => if x.1.validation.isValid then (1 : ℚ) else 0)).sum ∧
        p2.avgDuration * (p2.frequency : ℚ) =
          p.avgDuration * (p.frequency : ℚ) + (L.map (fun x => x.1.duration)).sum := by
  intro L
  induction L with
  | nil =>
    intro pats p hp _
    exact ⟨p, hp, rfl, by simp, by simp⟩
  | cons x xs ih =>
    intro pats p hp hk
    have hkx : getPatternKey x.1.intent = k := hk x (List.mem_cons_self x xs)
    have hn1 : ((p.frequency + 1 : Nat) : ℚ) ≠ 0 := by
      push_cast
      positivity
    -- the state after one step
    have hstep : updatePatterns pats x.1 x.2 = setA pats k
        { pattern := p.pattern,
          frequency := p.frequency + 1,
          avgDuration := (p.avgDuration * (((p.frequency + 1 : Nat) : ℚ) - 1) + x.1.duration) /
            ((p.frequency + 1 : Nat) : ℚ),
          successRate := (p.successRate * (((p.frequency + 1 : Nat) : ℚ) - 1) +
            (if x.1.validation.isValid then (1 : ℚ) else 0)) / ((p.frequency + 1 : Nat) : ℚ),
          lastUsed := x.2 } := by
      simp only [updatePatterns, hkx, hp, Option.getD_some]
    have hlook : lookupA (updatePatterns pats x.1 x.2) k = some
        { pattern := p.pattern,
          frequency := p.frequency + 1,
          avgDuration := (p.avgDuration * (((p.frequency + 1 : Nat) : ℚ) - 1) + x.1.duration) /
            ((p.frequency + 1 : Nat) : ℚ),
          successRate := (p.successRate * (((p.frequency + 1 : Nat) : ℚ) - 1) +
            (if x.1.validation.isValid then (1 : ℚ) else 0)) / ((p.frequency + 1 : Nat) : ℚ),
          lastUsed := x.2 } := by
      rw [hstep, lookupA_setA_self]
    obtain ⟨p2, hp2, hfreq, hrate, havg⟩ :=
      ih (updatePatterns pats x.1 x.2) _ hlook (fun y hy => hk y (List.mem_cons_of_mem x hy))
    refine ⟨p2, by simpa [List.foldl_cons] using hp2, ?_, ?_, ?_⟩
    · simpa [Nat.add_assoc, Nat.add_comm, Nat.add_left_comm] using hfreq
    · rw [hrate]
      simp only [List.map_cons, List.sum_cons]
      have : (p.successRate * (((p.frequency + 1 : Nat) : ℚ) - 1) +
          (if x.1.validation.isValid then (1 : ℚ) else 0)) / ((p.frequency + 1 : Nat) : ℚ) *
            ((p.frequency + 1 : Nat) : ℚ) =
          p.successRate * (p.frequency : ℚ) +
            (if x.1.validation.isValid then (1 : ℚ) else 0) := by
        rw [div_mul_cancel₀ _ hn1]
        push_cast
        ring
      rw [this]
      ring
    · rw [havg]
      simp only [List.map_cons, List.sum_cons]
      have : (p.avgDuration * (((p.frequency + 1 : Nat) : ℚ) - 1) + x.1.duration) /
            ((p.frequency + 1 : Nat) : ℚ) * ((p.frequency + 1 : Nat) : ℚ) =
          p.avgDuration * (p.frequency : ℚ) + x.1.duration := by
        rw [div_mul_cancel₀ _ hn1]
        push_cast
        ring
      rw [this]
      ring

/-- C9: for every non-empty sequence of recorded interactions sharing one
pattern key (the key initially absent), folding `updatePatterns` leaves the
pattern with `frequency = N`, `successRate` equal to the arithmetic mean of
the validity booleans (1/0), and `avgDuration` equal to the mean of the
durations: the incremental update `r' = (r·(n−1) + s)/n` computes exactly
the batch mean. -/
theorem c9_success_rate_is_mean (L : List (LearningInteraction × Nat))
    (pats0 : List (String × QueryPattern)) (k : String)
    (hk : ∀ x ∈ L, getPatternKey x.1.intent = k)
    (h0 : lookupA pats0 k = none)
    (hne : L ≠ []) :
    ∃ p, lookupA (L.foldl (fun acc x => updatePatterns acc x.1 x.2) pats0) k = some p ∧
      p.frequency = L.length ∧
      p.successRate =
        (L.map (fun x => if x.1.validation.isValid then (1 : ℚ) else 0)).sum / L.length ∧
      p.avgDuration = (L.map (fun x => x.1.duration)).sum / L.length := by
  obtain ⟨x, xs, rfl⟩ := List.exists_cons_of_ne_nil hne
  have hkx : getPatternKey x.1.intent = k := hk x (List.mem_cons_self x xs)
  -- the first step creates the pattern from the zeroed initial record
  have hstep : updatePatterns pats0 x.1 x.2 = setA pats0 k
      { pattern := x.1.query, frequency := 1,
        avgDuration := (0 * (((0 + 1 : Nat) : ℚ)- 1) + x.1.duration) / ((0 + 1 : Nat) : ℚ),
        successRate := (0 * (((0 + 1 : Nat) : ℚ) - 1) +
          (if x.1.validation.isValid then (1 : ℚ) else 0)) / ((0 + 1 : Nat) : ℚ),
        lastUsed := x.2 } := by
    simp only [updatePatterns, hkx, h0, Option.getD_none]
  have hlook : lookupA (updatePatterns pats0 x.1 x.2) k = some
      { pattern := x.1.query, frequency := 1,
        avgDuration := (0 * (((0 + 1 : Nat) : ℚ) - 1) + x.1.duration) / ((0 + 1 : Nat) : ℚ),
        successRate := (0 * (((0 + 1 : Nat) : ℚ) - 1) +
          (if x.1.validation.isValid then (1 : ℚ) else 0)) / ((0 + 1 : Nat) : ℚ),
        lastUsed := x.2 } := by
    rw [hstep, lookupA_setA_self]
  obtain ⟨p2, hp2, hfreq, hrate, havg⟩ :=
    updatePatterns_fold_invariant k xs (updatePatterns pats0 x.1 x.2) _ hlook
      (fun y hy => hk y (List.mem_cons_of_mem x hy))
  have hflen : p2.frequency = (x :: xs).length := by
    simpa [Nat.add_comm] using hfreq
  have hlen0 : (((x :: xs).length : Nat) : ℚ) ≠ 0 := by
    have : (0 : ℚ) < ((x :: xs).length : ℚ) := by
      exact_mod_cast Nat.pos_of_ne_zero (by simp)
    linarith
  refine ⟨p2, by simpa [List.foldl_cons] using hp2, hflen, ?_, ?_⟩
  · rw [eq_div_iff hlen0, ← hflen, hrate]
    simp only [List.map_cons, List.sum_cons]
    norm_num
  · rw [eq_div_iff hlen0, ← hflen, havg]
    simp only [List.map_cons, List.sum_cons]
    norm_num

/-! Concrete inputs for the C9 witness. -/

def intentC9 : Intent :=
  { action := "analyze", entities := [], filters := [], timeframe := none,
    aggregation := none, context := none }

def routingC9 : RoutingDecision :=
  { server := "A", tool := "analyze", params := JVal.obj [], protocol := "mcp",
    confidence := 1, alternates := [], reasoning := "" }

/-- A valid interaction with duration 4. -/
def interC9v : LearningInteraction :=
  { query := "s", intent := intentC9, routing := routingC9, duration := 4,
    validation := { isValid := true, errors := [], warnings := [], suggestions := [] },
    timestamp := 0, feedback := none }

/-- An invalid interaction with duration 2. -/
def interC9w : LearningInteraction :=
  { query := "t", intent := intentC9, routing := routingC9, duration := 2,
    validation := { isValid := false, errors := ["e"], warnings := [], suggestions := [] },
    timestamp := 0, feedback := none }

/-- C9 witness: two interactions (one valid, one invalid, durations 4 and 2)
yield frequency 2, successRate (1+0)/2 and avgDuration (4+2)/2. -/
theorem c9_witness :
    ∃ p, lookupA ([(interC9v, 1), (interC9w, 2)].foldl
        (fun acc x => updatePatterns acc x.1 x.2) []) "analyze" = some p ∧
      p.frequency = [(interC9v, 1), (interC9w, 2)].length ∧
      p.successRate = ([(interC9v, 1), (interC9w, 2)].map
        (fun x => if x.1.validation.isValid then (1 : ℚ) else 0)).sum /
          [(interC9v, 1), (interC9w, 2)].length ∧
      p.avgDuration = ([(interC9v, 1), (interC9w, 2)].map (fun x => x.1.duration)).sum /
          [(interC9v, 1), (interC9w, 2)].length :=
  c9_success_rate_is_mean [(interC9v, 1), (interC9w, 2)] [] "analyze"
    (by decide) rfl (by simp)

/-! ## Claim C3: the three indices versus the registered capabilities -/

theorem not_mem_keys_of_lookupA_none {α : Type} (l : List (String × α)) (k : String)
    (h : lookupA l k = none) : k ∉ l.map Prod.fst := by
  induction l with
  | nil => simp
  | cons hd tl ih =>
    obtain ⟨k0, v0⟩ := hd
    by_cases h0 : k0 = k
    · simp [lookupA, h0] at h
    · simp only [lookupA, if_neg h0] at h
      have h1 : ¬ k = k0 := fun hh => h0 hh.symm
      simp [h1, ih h]

theorem mem_indexGet_indexAdd (idx : List (String × List String)) (k n k' m : String) :
    m ∈ indexGet (indexAdd idx k n) k' ↔ (k' = k ∧ m = n) ∨ m ∈ indexGet idx k' := by
  unfold indexAdd
  cases hl : lookupA idx k with
  | none =>
    by_cases hk : k' = k
    · subst hk
      simp [indexGet, lookupA_append_self _ _ _ hl, hl]
    · simp [indexGet, lookupA_append_ne _ _ _ _ hk, hk]
  | some ns =>
    by_cases hk : k' = k
    · subst hk
      by_cases hn : n ∈ ns
      · simp only [if_pos hn, indexGet, lookupA_setA_self, hl, Option.getD_some]
        constructor
        · intro hm
          exact Or.inr hm
        · rintro (⟨-, rfl⟩ | hm)
          · exact hn
          · exact hm
      · simp only [if_neg hn, indexGet, lookupA_setA_self, hl, Option.getD_some,
          List.mem_append, List.mem_singleton]
        tauto
    · simp [indexGet, lookupA_setA_ne _ _ _ _ hk, hk]

theorem nodup_indexGet_indexAdd (idx : List (String × List String)) (k n k' : String)
    (h : ∀ j, (indexGet idx j).Nodup) : (indexGet (indexAdd idx k n) k').Nodup := by
  unfold indexAdd
  cases hl : lookupA idx k with
  | none =>
    by_cases hk : k' = k
    · rw [hk]
      simp [indexGet, lookupA_append_self _ _ _ hl]
    · simpa [indexGet, lookupA_append_ne _ _ _ _ hk] using h k'
  | some ns =>
    have hns : ns.Nodup := by
      have h2 := h k
      rwa [indexGet, hl, Option.getD_some] at h2
    by_cases hk : k' = k
    · rw [hk]
      by_cases hn : n ∈ ns
      · simpa [indexGet, lookupA_setA_self, hn] using hns
      · simp only [if_neg hn, indexGet, lookupA_setA_self, Option.getD_some]
        simp [List.nodup_append, hns, hn]
    · simpa [indexGet, lookupA_setA_ne _ _ _ _ hk] using h k'

theorem mem_indexGet_indexRemove (idx : List (String × List String)) (k n k' m : String)
    (hnd : (indexGet idx k).Nodup) :
    m ∈ indexGet (indexRemove idx k n) k' ↔ m ∈ indexGet idx k' ∧ ¬(k' = k ∧ m = n) := by
  unfold indexRemove
  cases hl : lookupA idx k with
  | none =>
    by_cases hk : k' = k
    · subst hk
      simp [indexGet, hl]
    · simp [hk]
  | some ns =>
    have hns : ns.Nodup := by
      rwa [indexGet, hl, Option.getD_some] at hnd
    by_cases hk : k' = k
    · subst hk
      simp only [indexGet, lookupA_setA_self, hl, Option.getD_some]
      rw [hns.mem_erase_iff]
      tauto
    · simp [indexGet, lookupA_setA_ne _ _ _ _ hk, hk]

theorem nodup_indexGet_indexRemove (idx : List (String × List String)) (k n k' : String)
    (h : ∀ j, (indexGet idx j).Nodup) : (indexGet (indexRemove idx k n) k').Nodup := by
  unfold indexRemove
  cases hl : lookupA idx k with
  | none => exact h k'
  | some ns =>
    have hns : ns.Nodup := by
      have h2 := h k
      rwa [indexGet, hl, Option.getD_some] at h2
    by_cases hk : k' = k
    · rw [hk]
      simpa [indexGet, lookupA_setA_self] using hns.erase n
    · simpa [indexGet, lookupA_setA_ne _ _ _ _ hk] using h k'

theorem mem_indexGet_addAll (keys : List String) (idx : List (String × List String))
    (n k m : String) :
    m ∈ indexGet (addAll idx keys n) k ↔ (k ∈ keys ∧ m = n) ∨ m ∈ indexGet idx k := by
  induction keys generalizing idx with
  | nil => simp [addAll]
  | cons d ds ih =>
    have hstep : addAll idx (d :: ds) n = addAll (indexAdd idx d n) ds n := by
      simp [addAll]
    rw [hstep, ih, mem_indexGet_indexAdd]
    constructor
    · rintro (⟨hd, rfl⟩ | (⟨rfl, rfl⟩ | hm))
      · exact Or.inl ⟨List.mem_cons_of_mem _ hd, rfl⟩
      · exact Or.inl ⟨List.mem_cons_self _ _, rfl⟩
      · exact Or.inr hm
    · rintro (⟨hd, rfl⟩ | hm)
      · rcases List.mem_cons.mp hd with rfl | hd2
        · exact Or.inr (Or.inl ⟨rfl, rfl⟩)
        · exact Or.inl ⟨hd2, rfl⟩
      · exact Or.inr (Or.inr hm)

theorem nodup_indexGet_addAll (keys : List String) (idx : List (String × List String))
    (n k : String) (h : ∀ j, (indexGet idx j).Nodup) :
    (indexGet (addAll idx keys n) k).Nodup := by
  induction keys generalizing idx with
  | nil => exact h k
  | cons d ds ih =>
    have hstep : addAll idx (d :: ds) n = addAll (indexAdd idx d n) ds n := by
      simp [addAll]
    rw [hstep]
    exact ih _ (fun j => nodup_indexGet_indexAdd idx d n j h)

theorem nodup_indexGet_removeAll (keys : List String) (idx : List (String × List String))
    (n k : String) (h : ∀ j, (indexGet idx j).Nodup) :
    (indexGet (removeAll idx keys n) k).Nodup := by
  induction keys generalizing idx with
  | nil => exact h k
  | cons d ds ih =>
    have hstep : removeAll idx (d :: ds) n = removeAll (indexRemove idx d n) ds n := by
      simp [removeAll]
    rw [hstep]
    exact ih _ (fun j => nodup_indexGet_indexRemove idx d n j h)

theorem mem_indexGet_removeAll (keys : List String) (idx : List (String × List String))
    (n k m : String) (h : ∀ j, (indexGet idx j).Nodup) :
    m ∈ indexGet (removeAll idx keys n) k ↔ m ∈ indexGet idx k ∧ ¬(k ∈ keys ∧ m = n) := by
  induction keys generalizing idx with
  | nil => simp [removeAll]
  | cons d ds ih =>
    have hstep : removeAll idx (d :: ds) n = removeAll (indexRemove idx d n) ds n := by
      simp [removeAll]
    rw [hstep, ih _ (fun j => nodup_indexGet_indexRemove idx d n j h),
      mem_indexGet_indexRemove idx d n k m (h d)]
    constructor
    · rintro ⟨⟨hm, hnd⟩, hds⟩
      refine ⟨hm, ?_⟩
      rintro ⟨hk, rfl⟩
      rcases List.mem_cons.mp hk with rfl | hk2
      · exact hnd ⟨rfl, rfl⟩
      · exact hds ⟨hk2, rfl⟩
    · rintro ⟨hm, hnot⟩
      refine ⟨⟨hm, ?_⟩, ?_⟩
      · rintro ⟨rfl, rfl⟩
        exact hnot ⟨List.mem_cons_self _ _, rfl⟩
      · rintro ⟨hk, rfl⟩
        exact hnot ⟨List.mem_cons_of_mem _ hk, rfl⟩

/-- The registry invariant: server keys and index name-sets are
duplicate-free, and each index maps each key to exactly the currently
registered servers whose capability declares that value. -/
structure RegistryInv (st : ServerRegistry) : Prop where
  serversNodup : (st.servers.map Prod.fst).Nodup
  domNodup : ∀ k, (indexGet st.domainIndex k).Nodup
  entNodup : ∀ k, (indexGet st.entityIndex k).Nodup
  opNodup : ∀ k, (indexGet st.operationIndex k).Nodup
  domCorr : ∀ k n, n ∈ indexGet st.domainIndex k ↔
    ∃ r, lookupA st.servers n = some r ∧ k ∈ r.capability.domains
  entCorr : ∀ k n, n ∈ indexGet st.entityIndex k ↔
    ∃ r, lookupA st.servers n = some r ∧ k ∈ r.capability.entities
  opCorr : ∀ k n, n ∈ indexGet st.operationIndex k ↔
    ∃ r, lookupA st.servers n = some r ∧ k ∈ r.capability.operations

theorem registryInv_empty : RegistryInv emptyRegistry := by
  constructor <;> simp [emptyRegistry, indexGet, lookupA]

/-- One-index correspondence after `addAll`, generic in the capability
field selected. -/
theorem corr_after_addAll (idx : List (String × List String))
    (servers : List (String × ServerRegistration)) (n : String)
    (r : ServerRegistration) (sel : ServerRegistration → List String)
    (hfresh : lookupA servers n = none)
    (hcorr : ∀ k m, m ∈ indexGet idx k ↔
      ∃ q, lookupA servers m = some q ∧ k ∈ sel q) :
    ∀ k m, m ∈ indexGet (addAll idx (sel r) n) k ↔
      ∃ q, lookupA (servers ++ [(n, r)]) m = some q ∧ k ∈ sel q := by
  intro k m
  rw [mem_indexGet_addAll]
  by_cases hm : m = n
  · subst hm
    rw [lookupA_append_self _ _ _ hfresh]
    constructor
    · rintro (⟨hk, -⟩ | hidx)
      · exact ⟨r, rfl, hk⟩
      · rcases (hcorr k m).mp hidx with ⟨q, hq, -⟩
        rw [hfresh] at hq
        cases hq
    · rintro ⟨q, hq, hk⟩
      cases hq
      exact Or.inl ⟨hk, rfl⟩
  · rw [lookupA_append_ne _ _ _ _ hm]
    rw [hcorr k m]
    constructor
    · rintro (⟨-, rfl⟩ | h2)
      · exact absurd rfl hm
      · exact h2
    · exact fun h2 => Or.inr h2

/-- One-index correspondence after `removeAll`, generic in the capability
field selected. -/
theorem corr_after_removeAll (idx : List (String × List String))
    (servers : List (String × ServerRegistration)) (n : String)
    (r : ServerRegistration) (sel : ServerRegistration → List String)
    (hnd : ∀ j, (indexGet idx j).Nodup)
    (hkeys : (servers.map Prod.fst).Nodup)
    (hlook : lookupA servers n = some r)
    (hcorr : ∀ k m, m ∈ indexGet idx k ↔
      ∃ q, lookupA servers m = some q ∧ k ∈ sel q) :
    ∀ k m, m ∈ indexGet (removeAll idx (sel r) n) k ↔
      ∃ q, lookupA (eraseKeyA servers n) m = some q ∧ k ∈ sel q := by
  intro k m
  rw [mem_indexGet_removeAll _ _ _ _ _ hnd, hcorr k m]
  by_cases hm : m = n
  · subst hm
    rw [lookupA_eraseKeyA_self _ _ hkeys, hlook]
    constructor
    · rintro ⟨⟨q, hq, hk⟩, hnot⟩
      cases hq
      exact absurd ⟨hk, rfl⟩ hnot
    · rintro ⟨q, hq, -⟩
      cases hq
  · rw [lookupA_eraseKeyA_ne _ _ _ hm]
    constructor
    · rintro ⟨h2, -⟩
      exact h2
    · intro h2
      refine ⟨h2, ?_⟩
      rintro ⟨-, rfl⟩
      exact hm rfl

theorem registryInv_register (st : ServerRegistry) (n : String) (c : ServerCapability)
    (hfresh : lookupA st.servers n = none) (hinv : RegistryInv st) :
    RegistryInv (register st n c) := by
  have hservers : (register st n c).servers = st.servers ++
      [(n, { name := n, capability := c, status := ServerStatus.active,
             metrics := { totalRequests := 0, avgResponseTime := 0, errorRate := 0 } })] := by
    simp [register, setA_of_lookupA_none _ _ _ hfresh]
  constructor
  · rw [hservers]
    simp only [List.map_append, List.map_cons, List.map_nil]
    rw [List.nodup_append]
    refine ⟨hinv.serversNodup, List.nodup_singleton n, ?_⟩
    intro a ha hb
    rw [List.mem_singleton] at hb
    subst hb
    exact not_mem_keys_of_lookupA_none st.servers a hfresh ha
  · exact fun k => nodup_indexGet_addAll _ _ _ _ hinv.domNodup
  · exact fun k => nodup_indexGet_addAll _ _ _ _ hinv.entNodup
  · exact fun k => nodup_indexGet_addAll _ _ _ _ hinv.opNodup
  · intro k m
    rw [show (register st n c).domainIndex = addAll st.domainIndex c.domains n from rfl,
      hservers]
    exact corr_after_addAll st.domainIndex st.servers n
      { name := n, capability := c, status := ServerStatus.active,
        metrics := { totalRequests := 0, avgResponseTime := 0, errorRate := 0 } }
      (fun q => q.capability.domains) hfresh hinv.domCorr k m
  · intro k m
    rw [show (register st n c).entityIndex = addAll st.entityIndex c.entities n from rfl,
      hservers]
    exact corr_after_addAll st.entityIndex st.servers n
      { name := n, capability := c, status := ServerStatus.active,
        metrics := { totalRequests := 0, avgResponseTime := 0, errorRate := 0 } }
      (fun q => q.capability.entities) hfresh hinv.entCorr k m
  · intro k m
    rw [show (register st n c).operationIndex = addAll st.operationIndex c.operations n from rfl,
      hservers]
    exact corr_after_addAll st.operationIndex st.servers n
      { name := n, capability := c, status := ServerStatus.active,
        metrics := { totalRequests := 0, avgResponseTime := 0, errorRate := 0 } }
      (fun q => q.capability.operations) hfresh hinv.opCorr k m

theorem eraseKeyA_sublist {α : Type} (l : List (String × α)) (k : String) :
    (eraseKeyA l k).Sublist l := by
  induction l with
  | nil => simp [eraseKeyA]
  | cons hd tl ih =>
    obtain ⟨k0, v0⟩ := hd
    by_cases h0 : k0 = k
    · simp [eraseKeyA, h0]
    · simp only [eraseKeyA, if_neg h0]
      exact ih.cons₂ _

theorem registryInv_unregister (st : ServerRegistry) (n : String)
    (hinv : RegistryInv st) : RegistryInv (unregister st n) := by
  unfold unregister
  cases hl : lookupA st.servers n with
  | none => exact hinv
  | some server =>
    constructor
    · exact List.Nodup.sublist ((eraseKeyA_sublist st.servers n).map Prod.fst)
        hinv.serversNodup
    · exact fun k => nodup_indexGet_removeAll _ _ _ _ hinv.domNodup
    · exact fun k => nodup_indexGet_removeAll _ _ _ _ hinv.entNodup
    · exact fun k => nodup_indexGet_removeAll _ _ _ _ hinv.opNodup
    · exact corr_after_removeAll st.domainIndex st.servers n server
        (fun q => q.capability.domains) hinv.domNodup hinv.serversNodup hl hinv.domCorr
    · exact corr_after_removeAll st.entityIndex st.servers n server
        (fun q => q.capability.entities) hinv.entNodup hinv.serversNodup hl hinv.entCorr
    · exact corr_after_removeAll st.operationIndex st.servers n server
        (fun q => q.capability.operations) hinv.opNodup hinv.serversNodup hl hinv.opCorr

/-- A registration/unregistration script. -/
inductive Op where
  | reg (name : String) (capability : ServerCapability)
  | unreg (name : String)

def applyOp (st : ServerRegistry) : Op → ServerRegistry
  | Op.reg n c => register st n c
  | Op.unreg n => unregister st n

def applyOps (st : ServerRegistry) (ops : List Op) : ServerRegistry :=
  ops.foldl applyOp st

/-- Well-formed script: every `register` targets a name not currently
registered (re-registering a live name leaves stale index entries — see the
counterexample). -/
def wfOps (st : ServerRegistry) : List Op → Bool
  | [] => true
  | Op.reg n c :: rest => (lookupA st.servers n).isNone && wfOps (register st n c) rest
  | Op.unreg n :: rest => wfOps (unregister st n) rest

theorem registryInv_applyOps (ops : List Op) :
    ∀ st : ServerRegistry, RegistryInv st → wfOps st ops = true →
      RegistryInv (applyOps st ops) := by
  induction ops with
  | nil => exact fun st hinv _ => hinv
  | cons op rest ih =>
    intro st hinv hwf
    cases op with
    | reg n c =>
      simp only [wfOps, Bool.and_eq_true, Option.isNone_iff_eq_none] at hwf
      exact ih (register st n c) (registryInv_register st n c hwf.1 hinv) hwf.2
    | unreg n =>
      simp only [wfOps] at hwf
      exact ih (unregister st n) (registryInv_unregister st n hinv) hwf

/-- C3 counterexample: re-registering `n` with a different capability and
then unregistering it leaves `n` in the entity index under the first
capability's value `a`, even though `n` is no longer registered — so neither
the exact-correspondence invariant nor the claimed
register/register/unregister absence holds. -/
theorem c3_counterexample :
    lookupA (unregister (register (register emptyRegistry "n"
        { protocol := "mcp", domains := [], entities := ["a"], operations := [],
          description := "first capability" }) "n"
        { protocol := "mcp", domains := [], entities := ["b"], operations := [],
          description := "second capability" }) "n").servers "n" = none ∧
      "n" ∈ indexGet (unregister (register (register emptyRegistry "n"
        { protocol := "mcp", domains := [], entities := ["a"], operations := [],
          description := "first capability" }) "n"
        { protocol := "mcp", domains := [], entities := ["b"], operations := [],
          description := "second capability" }) "n").entityIndex "a" := by
  constructor
  · with_unfolding_all rfl
  · with_unfolding_all decide

/-- C3 amended: after every script of register and unregister operations in
which no currently-registered name is re-registered, each of the three
indices maps each key to exactly the set of currently registered servers
whose capability declares that value; in particular a register followed by
an unregister of the same name leaves it absent from every index. -/
theorem c3_indices_exact (ops : List Op) (hwf : wfOps emptyRegistry ops = true) :
    (∀ k n, n ∈ indexGet (applyOps emptyRegistry ops).domainIndex k ↔
      ∃ r, lookupA (applyOps emptyRegistry ops).servers n = some r ∧
        k ∈ r.capability.domains) ∧
    (∀ k n, n ∈ indexGet (applyOps emptyRegistry ops).entityIndex k ↔
      ∃ r, lookupA (applyOps emptyRegistry ops).servers n = some r ∧
        k ∈ r.capability.entities) ∧
    (∀ k n, n ∈ indexGet (applyOps emptyRegistry ops).operationIndex k ↔
      ∃ r, lookupA (applyOps emptyRegistry ops).servers n = some r ∧
        k ∈ r.capability.operations) :=
  have hinv := registryInv_applyOps ops emptyRegistry registryInv_empty hwf
  ⟨hinv.domCorr, hinv.entCorr, hinv.opCorr⟩

def capC3 : ServerCapability :=
  { protocol := "mcp", domains := ["d"], entities := ["e"], operations := ["o"],
    description := "c3 witness" }

/-- C3 witness: the script register-then-unregister is well-formed and the
exact-correspondence conclusion holds for the resulting registry (in which
`n` is absent from every index, its lookups being `none`). -/
theorem c3_witness :
    (∀ k n, n ∈ indexGet (applyOps emptyRegistry
        [Op.reg "n" capC3, Op.unreg "n"]).domainIndex k ↔
      ∃ r, lookupA (applyOps emptyRegistry
          [Op.reg "n" capC3, Op.unreg "n"]).servers n = some r ∧
        k ∈ r.capability.domains) ∧
    (∀ k n, n ∈ indexGet (applyOps emptyRegistry
        [Op.reg "n" capC3, Op.unreg "n"]).entityIndex k ↔
      ∃ r, lookupA (applyOps emptyRegistry
          [Op.reg "n" capC3, Op.unreg "n"]).servers n = some r ∧
        k ∈ r.capability.entities) ∧
    (∀ k n, n ∈ indexGet (applyOps emptyRegistry
        [Op.reg "n" capC3, Op.unreg "n"]).operationIndex k ↔
      ∃ r, lookupA (applyOps emptyRegistry
          [Op.reg "n" capC3, Op.unreg "n"]).servers n = some r ∧
        k ∈ r.capability.operations) :=
  c3_indices_exact [Op.reg "n" capC3, Op.unreg "n"] (by with_unfolding_all decide)

end MCPI
